import Mathlib

/-!
Verification development for the FSHN outfit recommender
(`recommend_from_prompt_tn.ts`): a shallow embedding of its scoring,
candidate-selection, outfit-assembly and diversity-sampling core, with
theorems about the properties the design document states.

Modelling conventions:
* JavaScript numbers are modelled as exact rationals (`ℚ`); the numeric
  constants of the source (`0.5`, `1.3`, `0.0001`, …) appear as the
  corresponding rational literals (`1/2`, `13/10`, `1/10000`, …).
* Strings are modelled as `String` / `List Char`.  `normalizeText` in the
  source lower-cases, applies Unicode NFD normalisation, strips combining
  marks, replaces every character outside `[a-z0-9\s]` by a space, collapses
  whitespace and trims.  On ASCII text (all text used in this development)
  NFD normalisation and combining-mark stripping are the identity, so the
  model composes the remaining steps only.
* `Math.random()` is modelled as an abstract stream of rational draws
  (`Rng`), one value consumed per call, in call order.
* Mutable loops are modelled by structural recursion; the diversity-sampling
  `while` loop takes a fuel argument which the caller instantiates with the
  band length (the loop removes one band element per iteration, so that fuel
  is never exhausted early).
-/

namespace Fshn

/-- `type CategoryMain` of the source. -/
inductive CategoryMain where
  | top | bottom | shoes | mono
deriving DecidableEq

/-- `type Gender` of the source. -/
inductive Gender where
  | men | women | unisex
deriving DecidableEq

/-- `type Colour` of the source: the fixed 11-member palette. -/
inductive Colour where
  | black | white | grey | red | blue | green | beige | brown | pink | yellow | purple
deriving DecidableEq

/-- `type Vibe` of the source: the fixed 9-member palette. -/
inductive Vibe where
  | streetwear | edgy | minimal | y2k | techwear | sporty | preppy | vintage | chic
deriving DecidableEq

/-- `type Fit` of the source. -/
inductive Fit where
  | oversized | regular | slim | cropped
deriving DecidableEq

/-- `type Sport` of the source (includes the `'none'` value). -/
inductive Sport where
  | football | basketball | running | tennis | gym | other | none
deriving DecidableEq

/-- `type EntityType` of the source. -/
inductive EntityType where
  | brand | team | sponsor | generic
deriving DecidableEq

/-- `type Mode` of the source. -/
inductive Mode where
  | outfit | single
deriving DecidableEq

/-- `type OutfitForm` of the source. -/
inductive OutfitForm where
  | top_bottom_shoes | top_bottom | mono_only | mono_and_shoes
  | top_only | bottom_only | shoes_only
deriving DecidableEq

/-- `Gender | 'any'`: the `target_gender` field of `PromptIntent`. -/
inductive TargetGender where
  | men | women | unisex | any
deriving DecidableEq

/-- `Fit | 'mixed' | null`: the `fit_preference` field of `PromptIntent`.
`unspecified` models the JavaScript `null`. -/
inductive FitPref where
  | pref (f : Fit) | mixed | unspecified
deriving DecidableEq

/-! ### String machinery

The source normalises and matches free text with `normalizeText` and
`String.prototype.includes`; both are modelled over `List Char`. -/

/-- `pat` is a prefix of `hay` (character lists). -/
def startsWithL : List Char → List Char → Bool
  | _, [] => true
  | [], _ :: _ => false
  | h :: hs, p :: ps => h = p && startsWithL hs ps

/-- JavaScript `hay.includes(pat)`: `pat` occurs contiguously in `hay`. -/
def includesL : List Char → List Char → Bool
  | [], pat => startsWithL [] pat
  | h :: t, pat => startsWithL (h :: t) pat || includesL t pat

/-- One character of `normalizeText`: lower-case it, and replace anything
outside `[a-z0-9]` by a space (whitespace itself also maps to the space that
the collapsing step below merges, matching the regex chain on ASCII). -/
def normChar (c : Char) : Char :=
  let lc := c.toLower
  if (('a' ≤ lc ∧ lc ≤ 'z') ∨ ('0' ≤ lc ∧ lc ≤ '9')) then lc else ' '

/-- Split a character list at every occurrence of `sep` (pieces may be empty). -/
def splitOnChar (sep : Char) : List Char → List (List Char)
  | [] => [[]]
  | c :: cs =>
    let r := splitOnChar sep cs
    if c = sep then [] :: r
    else
      match r with
      | [] => [[c]]
      | h :: t => (c :: h) :: t

/-- Join word lists with a single separating character (`intercalate`). -/
def joinWithChar (sep : Char) : List (List Char) → List Char
  | [] => []
  | [w] => w
  | w :: ws => w ++ sep :: joinWithChar sep ws

/-- Core of `normalizeText` on a character list: map characters through
`normChar`, then collapse whitespace runs and trim (split / drop empties /
re-join, which is what `replace(/\s+/g,' ').trim()` does). -/
def normalizeChars (cs : List Char) : List Char :=
  joinWithChar ' ' (((splitOnChar ' ' (cs.map normChar))).filter (fun w => w ≠ []))

/-- `normalizeText(s || '')` of the source (ASCII model, see file header). -/
def normalizeTextL (s : Option String) : List Char :=
  normalizeChars (s.getD "").toList

/-- `texts.join(' ')` over raw strings, as a character list. -/
def joinTexts (l : List String) : List Char :=
  joinWithChar ' ' (l.map String.toList)

/-- Accumulator loop of `dedupFirst`: skip elements already seen. -/
def dedupFirstGo {α : Type} [DecidableEq α] (seen : List α) : List α → List α
  | [] => []
  | x :: xs => if x ∈ seen then dedupFirstGo seen xs else x :: dedupFirstGo (x :: seen) xs

/-- First-occurrence deduplication: what `Array.from(new Set(xs))` produces. -/
def dedupFirst {α : Type} [DecidableEq α] (l : List α) : List α :=
  dedupFirstGo [] l

/-- Lexicographic `≤` on character lists: JavaScript's default string
comparison used by `Array.prototype.sort()` (for the ASCII identifiers this
development manipulates). -/
def lexLe : List Char → List Char → Bool
  | [], _ => true
  | _ :: _, [] => false
  | a :: as, b :: bs => if a < b then true else if b < a then false else lexLe as bs

/-- Insert a string into an ascending list (stable insertion). -/
def insertAscStr (x : String) : List String → List String
  | [] => [x]
  | y :: ys => if lexLe x.toList y.toList then x :: y :: ys else y :: insertAscStr x ys

/-- `ids.sort()` of the source: ascending JavaScript string sort. -/
def sortStrings (l : List String) : List String :=
  l.foldr insertAscStr []

/-! ### Data model -/

/-- `interface EntityMeta` of the source. -/
structure EntityMeta where
  text : String
  weight : ℚ
  type : EntityType
deriving DecidableEq

/-- `interface SportMeta` of the source.  `sport` keeps its `| null`
optionality; absent `teams` is the empty list and absent/false `isKit` is
`false` (JavaScript truthiness). -/
structure SportMeta where
  sport : Option Sport
  teams : List String
  isKit : Bool
deriving DecidableEq

/-- `interface IndexItem` of the source. -/
structure IndexItem where
  id : String
  imagePath : String
  category : CategoryMain
  sub : Option String := Option.none
  colours : List Colour
  vibes : List Vibe
  gender : Gender
  fit : Option Fit := Option.none
  sportMeta : Option SportMeta := Option.none
  name : Option String := Option.none
  name_normalized : Option String := Option.none
  entities : Option (List String) := Option.none
  entityMeta : Option (List EntityMeta) := Option.none
deriving DecidableEq

/-- `interface PromptIntent` of the source. -/
structure PromptIntent where
  outfit_mode : Mode
  requested_form : OutfitForm
  required_categories : List CategoryMain
  optional_categories : List CategoryMain := []
  target_gender : TargetGender
  vibe_tags : List Vibe := []
  colour_hints : List Colour := []
  brand_focus : List String := []
  team_focus : List String := []
  sport_context : Sport
  fit_preference : FitPref := FitPref.unspecified
  specific_items : List String := []
deriving DecidableEq

/-- `item.sportMeta?.sport || 'none'`. -/
def itemSport (it : IndexItem) : Sport :=
  match it.sportMeta with
  | Option.none => Sport.none
  | Option.some sm => sm.sport.getD Sport.none

/-- `item.sportMeta?.teams || []`. -/
def itemTeams (it : IndexItem) : List String :=
  match it.sportMeta with
  | Option.none => []
  | Option.some sm => sm.teams

/-- Truthiness of `sm.isKit` (absent `sportMeta` is falsy). -/
def itemIsKit (it : IndexItem) : Bool :=
  match it.sportMeta with
  | Option.none => false
  | Option.some sm => sm.isKit

/-- `(item.entityMeta || [])`. -/
def itemEntityMeta (it : IndexItem) : List EntityMeta :=
  it.entityMeta.getD []

/-- `(item.entities || [])`. -/
def itemEntities (it : IndexItem) : List String :=
  it.entities.getD []

/-! ### Weight construction (`buildWeights`) -/

/-- `interface ContextWeights` of the source; the enum-keyed records become
total functions on the closed enumerations. -/
structure ContextWeights where
  wColour : Colour → ℚ
  wVibe : Vibe → ℚ
  wFit : Fit → ℚ
  wSport : Sport → ℚ
  brandTokens : List (List Char)
  teamTokens : List (List Char)
  sportContext : Sport
  specificTokens : List (List Char)

/-- All 11 colours, in the declaration order of the `wColour` record literal. -/
def allColours : List Colour :=
  [Colour.black, Colour.white, Colour.grey, Colour.red, Colour.blue, Colour.green,
   Colour.beige, Colour.brown, Colour.pink, Colour.yellow, Colour.purple]

/-- All 9 vibes, in the declaration order of the `wVibe` record literal. -/
def allVibes : List Vibe :=
  [Vibe.streetwear, Vibe.edgy, Vibe.minimal, Vibe.y2k, Vibe.techwear, Vibe.sporty,
   Vibe.preppy, Vibe.vintage, Vibe.chic]

/-- The neutral baseline `buildWeights` adds to `wColour` when the intent has
no colour hints (`black/white/grey += 0.3`, `beige += 0.2`). -/
def baselineColour : Colour → ℚ
  | Colour.black => 3/10
  | Colour.white => 3/10
  | Colour.grey => 3/10
  | Colour.beige => 1/5
  | _ => 0

/-- `buildWeights(intent)` of the source.  Each hinted colour adds `1.0`
(so `wColour c` is the hint count of `c`), plus the neutral baseline when no
hints exist; vibes likewise count tags; the fit record is `0.1` everywhere and
`1.0` at an explicit single preference, else the mixed baseline
`{oversized 0.4, regular 0.9, slim 0.4, cropped 0.2}` (initial values plus the
`+=` increments); sport is an indicator of the requested context. -/
def buildWeights (intent : PromptIntent) : ContextWeights where
  wColour := fun c =>
    (intent.colour_hints.count c : ℚ) +
      (if intent.colour_hints = [] then baselineColour c else 0)
  wVibe := fun v => (intent.vibe_tags.count v : ℚ)
  wFit :=
    match intent.fit_preference with
    | FitPref.pref f => fun g => if g = f then 1 else 1/10
    | _ => fun g =>
        match g with
        | Fit.oversized => 2/5
        | Fit.regular => 9/10
        | Fit.slim => 2/5
        | Fit.cropped => 1/5
  wSport := fun s =>
    if intent.sport_context ≠ Sport.none then
      (if s = intent.sport_context then 1 else 0)
    else 0
  brandTokens := intent.brand_focus.map (fun s => normalizeTextL (Option.some s))
  teamTokens := intent.team_focus.map (fun s => normalizeTextL (Option.some s))
  sportContext := intent.sport_context
  specificTokens :=
    dedupFirst (intent.specific_items.flatMap (fun raw =>
      (splitOnChar ' ' (normalizeTextL (Option.some raw))).filter (fun w => w ≠ [])))

/-! ### Single item scoring (`ItemScorer`) -/

/-- `neutrals` list used by colour scoring and pair compatibility. -/
def neutrals : List Colour :=
  [Colour.black, Colour.white, Colour.grey, Colour.beige, Colour.brown]

/-- `Math.max(...neutrals.map((c) => wColour[c] || 0))`. -/
def neutralMax (w : Colour → ℚ) : ℚ :=
  max (w Colour.black) (max (w Colour.white) (max (w Colour.grey)
    (max (w Colour.beige) (w Colour.brown))))

/-- `colourAlignment(item, wColour)` of the source: best colour weight, a
`-0.5` penalty when the total preference mass is positive but no item colour
has positive weight, and a `+0.2 * strongest-neutral-weight` bonus when the
item carries a neutral colour. -/
def colourAlignment (item : IndexItem) (w : Colour → ℚ) : ℚ :=
  if item.colours = [] then 0
  else
    let best := item.colours.foldl (fun acc c => max acc (w c)) 0
    let totalPref := (allColours.map w).sum
    let hasMatch := item.colours.any (fun c => decide (0 < w c))
    let best := if 0 < totalPref ∧ hasMatch = false then best - 1/2 else best
    let hasNeutral := item.colours.any (fun c => c ∈ neutrals)
    if hasNeutral then best + 1/5 * neutralMax w else best

/-- `vibeAlignment(item, wVibe)` of the source. -/
def vibeAlignment (item : IndexItem) (w : Vibe → ℚ) : ℚ :=
  if item.vibes = [] then 0
  else
    let score := (item.vibes.map w).sum
    let totalPref := (allVibes.map w).sum
    let hasMatch := item.vibes.any (fun v => decide (0 < w v))
    if 0 < totalPref ∧ hasMatch = false then score - 3/10 else score

/-- `fitAlignment(item, wFit)` of the source (absent fit defaults to regular). -/
def fitAlignment (item : IndexItem) (w : Fit → ℚ) : ℚ :=
  w (item.fit.getD Fit.regular)

/-- The `nameText` blob of `brandAlignment` / `hasBrandMatch`. -/
def brandNameText (item : IndexItem) : List Char :=
  normalizeTextL item.name ++ ' ' :: normalizeTextL item.name_normalized

/-- `normalizeText((item.entityMeta || []).map((e) => e.text).join(' '))`. -/
def entityText (item : IndexItem) : List Char :=
  normalizeChars (joinTexts ((itemEntityMeta item).map (fun e => e.text)))

/-- `brandAlignment(item, brandTokens)` of the source: `+1.0` per token in the
name text, `+1.5` per token in the entity text. -/
def brandAlignment (item : IndexItem) (brandTokens : List (List Char)) : ℚ :=
  if brandTokens = [] then 0
  else
    brandTokens.foldl (fun acc t =>
      if t = [] then acc
      else
        acc + (if includesL (brandNameText item) t then 1 else 0)
            + (if includesL (entityText item) t then 3/2 else 0)) 0

/-- `sportAlignment(item, wSport, sportContext)` of the source. -/
def sportAlignment (item : IndexItem) (w : Sport → ℚ) (sportContext : Sport) : ℚ :=
  let sport := itemSport item
  let score := w sport
  let score := if 0 < w sport ∧ itemIsKit item = true then score + 1/2 else score
  if sportContext = Sport.none ∧ sport ≠ Sport.none then
    score - (if itemIsKit item then 7/10 else 2/5)
  else score

/-- The combined text blob of `specificItemAlignment` / `countSpecificMatches`
(name, normalized name, image path and entity text; no raw entities list). -/
def specificText (item : IndexItem) : List Char :=
  normalizeTextL item.name ++ ' ' :: normalizeTextL item.name_normalized
    ++ ' ' :: normalizeTextL (Option.some item.imagePath)
    ++ ' ' :: entityText item

/-- `specificItemAlignment(item, specificTokens)`: one point per token that
occurs in the combined text blob. -/
def specificItemAlignment (item : IndexItem) (specificTokens : List (List Char)) : ℚ :=
  if specificTokens = [] then 0
  else
    specificTokens.foldl (fun acc t =>
      if t = [] then acc
      else acc + (if includesL (specificText item) t then 1 else 0)) 0

/-- `countSpecificMatches(item, specificTokens)`: how many tokens occur in the
combined text blob. -/
def countSpecificMatches (item : IndexItem) (specificTokens : List (List Char)) : ℕ :=
  if specificTokens = [] then 0
  else
    specificTokens.foldl (fun acc t =>
      if t = [] then acc
      else acc + (if includesL (specificText item) t then 1 else 0)) 0

/-- `genericTeamText(item)` of the source. -/
def genericTeamText (item : IndexItem) : List Char :=
  normalizeTextL item.name ++ ' ' :: normalizeTextL item.name_normalized
    ++ ' ' :: normalizeTextL (Option.some item.imagePath)
    ++ ' ' :: normalizeChars (joinTexts (itemEntities item))
    ++ ' ' :: entityText item

/-- The item's sport-meta teams, normalized. -/
def normTeams (item : IndexItem) : List (List Char) :=
  (itemTeams item).map (fun s => normalizeTextL (Option.some s))

/-- The item's team-typed entity texts, normalized. -/
def normEntityTeams (item : IndexItem) : List (List Char) :=
  ((itemEntityMeta item).filter (fun e => e.type = EntityType.team)).map
    (fun e => normalizeTextL (Option.some e.text))

/-- `teamAlignment(item, teamTokens)` of the source: `+1.5` for a fuzzy
(substring either way) hit in sport-meta teams, `+1.5` for one in team-typed
entities, `+1.0` for a hit in the generic text blob; sources stack. -/
def teamAlignment (item : IndexItem) (teamTokens : List (List Char)) : ℚ :=
  if teamTokens = [] then 0
  else
    teamTokens.foldl (fun acc t =>
      if t = [] then acc
      else
        acc + (if (normTeams item).any (fun x => x ≠ [] ∧ (includesL x t ∨ includesL t x))
               then 3/2 else 0)
            + (if (normEntityTeams item).any (fun x => x ≠ [] ∧ (includesL x t ∨ includesL t x))
               then 3/2 else 0)
            + (if includesL (genericTeamText item) t then 1 else 0)) 0

/-- `scoreSingleItem(item, weights)`: the `WEIGHT_SINGLE` linear combination
(colour 1.0, vibe 1.2, fit 0.8, brand 1.0, sport 1.0, team 1.2, specific 1.5). -/
def scoreSingleItem (item : IndexItem) (weights : ContextWeights) : ℚ :=
  1 * colourAlignment item weights.wColour
    + 6/5 * vibeAlignment item weights.wVibe
    + 4/5 * fitAlignment item weights.wFit
    + 1 * brandAlignment item weights.brandTokens
    + 1 * sportAlignment item weights.wSport weights.sportContext
    + 6/5 * teamAlignment item weights.teamTokens
    + 3/2 * specificItemAlignment item weights.specificTokens

/-! ### Pairwise compatibility factors -/

/-- The contribution of one colour pair inside `pairColorCompatibility`:
identical `1.0`, neutral/neutral `0.6`, neutral/other `0.4`, else `0`. -/
def pairColourTerm (ca cb : Colour) : ℚ :=
  if ca = cb then 1
  else if ca ∈ neutrals ∧ cb ∈ neutrals then 3/5
  else if ca ∈ neutrals ∨ cb ∈ neutrals then 2/5
  else 0

/-- `pairColorCompatibility(a, b)` of the source: average of the pair terms
over all colour combinations (0 when either item has no colours). -/
def pairColorCompatibility (a b : IndexItem) : ℚ :=
  if a.colours = [] ∨ b.colours = [] then 0
  else
    (a.colours.map (fun ca => (b.colours.map (fun cb => pairColourTerm ca cb)).sum)).sum
      / ((a.colours.length : ℚ) * (b.colours.length : ℚ))

/-- `pairVibeCompatibility(a, b)` of the source: number of shared (distinct)
vibes plus fixed cross-bonuses for streetwear↔sporty and chic↔minimal. -/
def pairVibeCompatibility (a b : IndexItem) : ℚ :=
  let shared := ((dedupFirst a.vibes).filter (fun v => v ∈ b.vibes)).length
  let bonus :=
    (if Vibe.streetwear ∈ a.vibes ∧ Vibe.sporty ∈ b.vibes then (1/2 : ℚ) else 0)
    + (if Vibe.sporty ∈ a.vibes ∧ Vibe.streetwear ∈ b.vibes then 1/2 else 0)
    + (if Vibe.chic ∈ a.vibes ∧ Vibe.minimal ∈ b.vibes then 2/5 else 0)
    + (if Vibe.minimal ∈ a.vibes ∧ Vibe.chic ∈ b.vibes then 2/5 else 0)
  (shared : ℚ) + bonus

/-- `pairFitCompatibility(top, bottom)` of the source (absent fits default to
regular): the silhouette lookup table. -/
def pairFitCompatibility (top bottom : IndexItem) : ℚ :=
  let ft := top.fit.getD Fit.regular
  let fb := bottom.fit.getD Fit.regular
  if ft = Fit.oversized ∧ fb = Fit.slim then 13/10
  else if ft = Fit.oversized ∧ fb = Fit.regular then 1
  else if ft = Fit.regular ∧ fb = Fit.slim then 1
  else if ft = Fit.slim ∧ fb = Fit.slim then 9/10
  else if ft = Fit.oversized ∧ fb = Fit.oversized then 2/5
  else 1/2

/-- `pairSportCompatibility(a, b, sportContext)` of the source. -/
def pairSportCompatibility (a b : IndexItem) (sportContext : Sport) : ℚ :=
  let sa := itemSport a
  let sb := itemSport b
  if sportContext = Sport.none then
    if sa = Sport.none ∧ sb = Sport.none then 0
    else if sa ≠ Sport.none ∧ sb ≠ Sport.none then -(1/2)
    else -(1/5)
  else
    if sa = Sport.none ∨ sb = Sport.none then 0
    else if sa = sb then 1
    else 1/5

/-- `pairTeamCompatibility(a, b)` of the source: `1.2` when any team of one
fuzzy-matches any team of the other, `-0.3` when both have teams but none
match, `0` when either lacks team data. -/
def pairTeamCompatibility (a b : IndexItem) : ℚ :=
  let ta := (itemTeams a).map (fun s => normalizeTextL (Option.some s))
  let tb := (itemTeams b).map (fun s => normalizeTextL (Option.some s))
  if ta = [] ∨ tb = [] then 0
  else if ta.any (fun x => tb.any (fun y =>
         x ≠ [] ∧ y ≠ [] ∧ (x = y ∨ includesL x y ∨ includesL y x)))
  then 6/5
  else -(3/10)

/-! ### Candidate filtering (`CandidateSelector`) -/

/-- `genderCompatible(itemGender, target)` of the source. -/
def genderCompatible (itemGender : Gender) (target : TargetGender) : Bool :=
  if target = TargetGender.any then true
  else if itemGender = Gender.unisex then true
  else
    match itemGender, target with
    | Gender.men, TargetGender.men => true
    | Gender.women, TargetGender.women => true
    | Gender.unisex, TargetGender.unisex => true
    | _, _ => false

/-- `hasBrandMatch(item, brandTokens)` of the source. -/
def hasBrandMatch (item : IndexItem) (brandTokens : List (List Char)) : Bool :=
  if brandTokens = [] then false
  else
    brandTokens.any (fun t => t ≠ [] ∧
      includesL (brandNameText item ++ ' ' :: entityText item) t)

/-- `hasTeamMatch(item, teamTokens)` of the source: a token fuzzy-matches the
concatenated sport-meta/entity team lists or occurs in the generic text blob. -/
def hasTeamMatch (item : IndexItem) (teamTokens : List (List Char)) : Bool :=
  if teamTokens = [] then false
  else
    teamTokens.any (fun t => t ≠ [] ∧
      (((normTeams item ++ normEntityTeams item).any
          (fun x => x ≠ [] ∧ (includesL x t ∨ includesL t x)))
        ∨ includesL (genericTeamText item) t))

/-- `isSportRelevantForContext(item, sportContext, teamTokens)` of the source. -/
def isSportRelevantForContext (item : IndexItem) (sportContext : Sport)
    (teamTokens : List (List Char)) : Bool :=
  if sportContext = Sport.none then false
  else if itemSport item = sportContext then true
  else hasTeamMatch item teamTokens

/-- One relaxation stage: which optional constraints it still requires. -/
structure Stage where
  requireBrand : Bool
  requireTeam : Bool
  requireSportStrong : Bool
deriving DecidableEq

/-- The four stages of `filterCandidatesForRole`, most to least restrictive. -/
def stages : List Stage :=
  [⟨true, true, true⟩, ⟨false, true, true⟩, ⟨false, false, true⟩, ⟨false, false, false⟩]

/-- The specific-item narrowing inside each stage: when specific tokens were
given and the pool is non-empty, keep the items tying for the maximum count of
matched tokens (only when that maximum is positive).  `Math.max(...counts)`
over a non-empty list of naturals is their fold with `max`. -/
def specificTieFilter (specificTokens : List (List Char)) (pool : List IndexItem) :
    List IndexItem :=
  if specificTokens ≠ [] ∧ pool ≠ [] then
    let counted := pool.map (fun it => (it, countSpecificMatches it specificTokens))
    let maxMatches : ℕ := (counted.map (fun c => c.2)).foldl max 0
    if 0 < maxMatches then (counted.filter (fun c => c.2 = maxMatches)).map (fun c => c.1)
    else pool
  else pool

/-- The pool computed by one iteration of the stage loop of
`filterCandidatesForRole`: gender filter, then the stage's sport / brand /
team requirements, then the specific-item narrowing. -/
def stagePool (base : List IndexItem) (intent : PromptIntent) (w : ContextWeights)
    (st : Stage) : List IndexItem :=
  let pool := base.filter (fun it => genderCompatible it.gender intent.target_gender)
  let pool :=
    if st.requireSportStrong then
      if intent.sport_context ≠ Sport.none then
        pool.filter (fun it => isSportRelevantForContext it intent.sport_context w.teamTokens)
      else
        let nonSport := pool.filter (fun it => itemSport it = Sport.none)
        if nonSport ≠ [] then nonSport else pool
    else pool
  let pool :=
    if st.requireBrand ∧ w.brandTokens ≠ [] then
      pool.filter (fun it => hasBrandMatch it w.brandTokens)
    else pool
  let pool :=
    if st.requireTeam ∧ w.teamTokens ≠ [] then
      pool.filter (fun it => hasTeamMatch it w.teamTokens)
    else pool
  specificTieFilter w.specificTokens pool

/-- The stage loop: return the first non-empty stage pool, else the base. -/
def stagesLoop (base : List IndexItem) (intent : PromptIntent) (w : ContextWeights) :
    List Stage → List IndexItem
  | [] => base
  | st :: rest =>
    let pool := stagePool base intent w st
    if pool ≠ [] then pool else stagesLoop base intent w rest

/-- `filterCandidatesForRole(items, category, intent, weights)` of the source:
restrict to the role, narrow to sport-relevant items when a sport context is
set and any exist, then run the staged relaxation, falling back to the
(possibly sport-narrowed) role-restricted list. -/
def filterCandidatesForRole (items : List IndexItem) (category : CategoryMain)
    (intent : PromptIntent) (w : ContextWeights) : List IndexItem :=
  let base := items.filter (fun it => it.category = category)
  let base :=
    if intent.sport_context ≠ Sport.none then
      let sporty := base.filter (fun it =>
        isSportRelevantForContext it intent.sport_context w.teamTokens)
      if sporty ≠ [] then sporty else base
    else base
  stagesLoop base intent w stages

/-! ### Outfit assembly and scoring -/

/-- `interface Outfit` of the source: a partial role → item mapping. -/
structure Outfit where
  top : Option IndexItem := Option.none
  bottom : Option IndexItem := Option.none
  shoes : Option IndexItem := Option.none
  mono : Option IndexItem := Option.none
deriving DecidableEq

/-- An entry of the `outfits` array: `{ outfit, score }`. -/
structure ScoredOutfit where
  outfit : Outfit
  score : ℚ
deriving DecidableEq

/-- `singleScores.get(id) ?? 0`: the map is filled by iterating the catalog,
so a duplicated id ends up with the score of its last occurrence. -/
def singleScoresOf (items : List IndexItem) (w : ContextWeights) : String → ℚ :=
  fun id =>
    match (items.filter (fun it => it.id = id)).getLast? with
    | Option.some it => scoreSingleItem it w
    | Option.none => 0

/-- One pairwise block of `scoreOutfit` (top-bottom gets the fit factor too;
the other pairs use colour/vibe/sport/team only), with the `WEIGHT_PAIR`
coefficients colour 0.6, vibe 0.9, fit 0.7, sport 0.8, team 1.0. -/
def pairBlock (a b : IndexItem) (withFit : Bool) (sportContext : Sport) : ℚ :=
  3/5 * pairColorCompatibility a b
    + 9/10 * pairVibeCompatibility a b
    + (if withFit then 7/10 * pairFitCompatibility a b else 0)
    + 4/5 * pairSportCompatibility a b sportContext
    + 1 * pairTeamCompatibility a b

/-- `scoreOutfit(outfit, singleScores, weights)` of the source: sum of the
present items' single scores plus the pairwise factors for the present pairs
top-bottom (with fit), top-shoes, bottom-shoes and mono-shoes. -/
def scoreOutfit (o : Outfit) (singleScores : String → ℚ) (w : ContextWeights) : ℚ :=
  let singles :=
    (match o.top with | Option.some it => singleScores it.id | Option.none => 0)
      + (match o.bottom with | Option.some it => singleScores it.id | Option.none => 0)
      + (match o.shoes with | Option.some it => singleScores it.id | Option.none => 0)
      + (match o.mono with | Option.some it => singleScores it.id | Option.none => 0)
  let pairs :=
    (match o.top, o.bottom with
     | Option.some t, Option.some b => pairBlock t b true w.sportContext
     | _, _ => 0)
      + (match o.top, o.shoes with
         | Option.some t, Option.some sh => pairBlock t sh false w.sportContext
         | _, _ => 0)
      + (match o.bottom, o.shoes with
         | Option.some b, Option.some sh => pairBlock b sh false w.sportContext
         | _, _ => 0)
      + (match o.mono, o.shoes with
         | Option.some m, Option.some sh => pairBlock m sh false w.sportContext
         | _, _ => 0)
  singles + pairs

/-- `{ [cat]: it }`: the outfit holding one item in one role. -/
def roleOutfit (cat : CategoryMain) (it : IndexItem) : Outfit :=
  match cat with
  | CategoryMain.top => { top := Option.some it }
  | CategoryMain.bottom => { bottom := Option.some it }
  | CategoryMain.shoes => { shoes := Option.some it }
  | CategoryMain.mono => { mono := Option.some it }

/-- The outfit-enumeration loops of `main` (before jitter), in push order:
mono(×shoes), or top×bottom(×shoes), or - in single/partial mode - each
candidate of each required category on its own with its single score. -/
def enumOutfits (requiredCats : List CategoryMain) (byCat : CategoryMain → List IndexItem)
    (singleScores : String → ℚ) (w : ContextWeights) (isOutfit : Bool) :
    List ScoredOutfit :=
  if isOutfit then
    let shoesPool := byCat CategoryMain.shoes
    if CategoryMain.mono ∈ requiredCats then
      let useShoes := CategoryMain.shoes ∈ requiredCats
      (byCat CategoryMain.mono).flatMap (fun m =>
        if useShoes ∧ shoesPool ≠ [] then
          shoesPool.map (fun sh =>
            let o : Outfit := { mono := Option.some m, shoes := Option.some sh }
            ⟨o, scoreOutfit o singleScores w⟩)
        else
          [⟨{ mono := Option.some m }, scoreOutfit { mono := Option.some m } singleScores w⟩])
    else
      let useShoes := CategoryMain.shoes ∈ requiredCats
      (byCat CategoryMain.top).flatMap (fun t =>
        (byCat CategoryMain.bottom).flatMap (fun b =>
          if useShoes ∧ shoesPool ≠ [] then
            shoesPool.map (fun sh =>
              let o : Outfit :=
                { top := Option.some t, bottom := Option.some b, shoes := Option.some sh }
              ⟨o, scoreOutfit o singleScores w⟩)
          else
            [⟨{ top := Option.some t, bottom := Option.some b },
              scoreOutfit { top := Option.some t, bottom := Option.some b } singleScores w⟩]))
  else
    requiredCats.flatMap (fun cat =>
      (byCat cat).map (fun it => ⟨roleOutfit cat it, singleScores it.id⟩))

/-! ### Randomness, ranking and diversity sampling -/

/-- `clamp01(x)` of the source. -/
def clamp01 (x : ℚ) : ℚ :=
  if x < 0 then 0 else if 1 < x then 1 else x

/-- The effective diversity factor: `clamp01(argv.epsilon)` (line 1187). -/
def effectiveEpsilon (x : ℚ) : ℚ := clamp01 x

/-- `randUniform(min, max)` applied to one `Math.random()` draw `r`. -/
def randUniform (lo hi r : ℚ) : ℚ := lo + r * (hi - lo)

/-- The abstract random stream: `vals` are the successive `Math.random()`
results (each in `[0,1)`), `idx` is the position of the next unconsumed draw. -/
structure Rng where
  vals : ℕ → ℚ
  idx : ℕ

/-- The scanning loop of `choiceWeighted`: subtract scores until the running
remainder drops to `≤ 0`.  When the scores list is exhausted first, the
JavaScript remainder is `NaN` (never `≤ 0`), so scanning never hits; both
lists have equal length at the call site. -/
def choiceWeightedGo : List ScoredOutfit → List ℚ → ℚ → Option ScoredOutfit
  | [], _, _ => Option.none
  | _ :: rest, [], r => choiceWeightedGo rest [] r
  | it :: rest, s :: ss, r =>
    if r - s ≤ 0 then Option.some it else choiceWeightedGo rest ss (r - s)

/-- `choiceWeighted(items, scores)` of the source, applied to one draw `r0`:
`null` on an empty list or non-positive total, else the weighted pick with the
last item as fallback. -/
def choiceWeighted (items : List ScoredOutfit) (scores : List ℚ) (r0 : ℚ) :
    Option ScoredOutfit :=
  let total := scores.sum
  if items = [] ∨ total ≤ 0 then Option.none
  else
    match choiceWeightedGo items scores (r0 * total) with
    | Option.some x => Option.some x
    | Option.none => items.getLast?

/-- `ids.sort().join('|')`: the deduplication signature of an outfit, built
from the present items' ids in the fixed role order, sorted, bar-joined. -/
def sigOf (o : Outfit) : List Char :=
  let ids := ([o.top, o.bottom, o.shoes, o.mono].filterMap (fun x => x)).map
    (fun it => it.id)
  joinWithChar '|' ((sortStrings ids).map String.toList)

/-- The pick of one sampling iteration: with `r < eps` draw via
`choiceWeighted` over scores shifted above the band minimum (`topBand[0]` as
fallback for a `null` draw), otherwise take the band head.  `b0 :: rest` is
the current band; `r` is this iteration's first draw and `r2` the second. -/
def samplePick (eps r r2 : ℚ) (b0 : ScoredOutfit) (rest : List ScoredOutfit) :
    ScoredOutfit :=
  if r < eps then
    (choiceWeighted (b0 :: rest)
      ((b0 :: rest).map (fun o =>
        max (1/10000 : ℚ) (o.score - (rest.getLastD b0).score + 1/1000)))
      r2).getD b0
  else b0

/-- The diversity-sampling `while` loop of `main` (lines 1266-1297): pick,
compute the signature, accept when unseen, remove the pick from the band.
`fuel` is instantiated with the band length by the caller; each iteration
removes one band element, so the loop never runs out of fuel early.
The JavaScript `indexOf`/`splice` removal deletes the picked array element by
reference; `List.erase` deletes the first structurally-equal element, which
removes the same multiset element. -/
def sampleLoop (eps : ℚ) (poolSize : ℕ) :
    ℕ → Rng → List ScoredOutfit → List ScoredOutfit → List (List Char) →
    List ScoredOutfit
  | 0, _, _, chosen, _ => chosen
  | _ + 1, _, [], chosen, _ => chosen
  | fuel + 1, rng, b0 :: rest, chosen, used =>
    if chosen.length < poolSize then
      let r := rng.vals rng.idx
      let pick := samplePick eps r (rng.vals (rng.idx + 1)) b0 rest
      let rng2 : Rng := ⟨rng.vals, rng.idx + (if r < eps then 2 else 1)⟩
      let sg := sigOf pick.outfit
      if sg ∈ used then
        sampleLoop eps poolSize fuel rng2 ((b0 :: rest).erase pick) chosen used
      else
        sampleLoop eps poolSize fuel rng2 ((b0 :: rest).erase pick)
          (chosen ++ [pick]) (used ++ [sg])
    else chosen

/-- Stable insertion of a scored element into a descending list: the model of
one step of `Array.prototype.sort((a, b) => b.score - a.score)` (stable in
JavaScript engines per the ECMAScript specification). -/
def insertDescBy {α : Type} (f : α → ℚ) (x : α) : List α → List α
  | [] => [x]
  | y :: ys => if f y ≤ f x then x :: y :: ys else y :: insertDescBy f x ys

/-- Stable descending sort by a score projection. -/
def sortDescBy {α : Type} (f : α → ℚ) (l : List α) : List α :=
  l.foldr (insertDescBy f) []

/-- Ranking plus diversity sampling (`main` lines 1260-1297): sort the scored
candidates descending, slice the `max(3N, N)` band, run the sampling loop. -/
def diversitySample (eps : ℚ) (poolSize : ℕ) (rng : Rng) (cands : List ScoredOutfit) :
    List ScoredOutfit :=
  let sorted := sortDescBy (fun c : ScoredOutfit => c.score) cands
  let band := sorted.take (max (poolSize * 3) poolSize)
  sampleLoop eps poolSize band.length rng band [] []

/-! ### The end-to-end pipeline of `main` (after intent resolution) -/

/-- The CLI options the core consumes. -/
structure Options where
  pool_size : ℕ
  per_role_limit : ℕ
  epsilon : ℚ
  jitter : ℚ

/-- Per-role shortlist: filter, score, sort descending, truncate. -/
def candidatesFor (items : List IndexItem) (intent : PromptIntent) (w : ContextWeights)
    (limit : ℕ) (cat : CategoryMain) : List IndexItem :=
  let pool := filterCandidatesForRole items cat intent w
  (((sortDescBy (fun p : IndexItem × ℚ => p.2)
      (pool.map (fun it => (it, scoreSingleItem it w)))).take limit).map (fun p => p.1))

/-- `candidatesByCat`: filled for the required categories, empty elsewhere. -/
def byCatOf (items : List IndexItem) (intent : PromptIntent) (w : ContextWeights)
    (limit : ℕ) (requiredCats : List CategoryMain) : CategoryMain → List IndexItem :=
  fun cat =>
    if cat ∈ requiredCats then candidatesFor items intent w limit cat else []

/-- The deterministic part of `main` up to (and excluding) the jitter: build
weights, deduplicate the required categories, build the per-role shortlists
and enumerate the scored outfit candidates. -/
def enumPhase (items : List IndexItem) (intent : PromptIntent) (opts : Options) :
    List ScoredOutfit :=
  let w := buildWeights intent
  let requiredCats := dedupFirst intent.required_categories
  let byCat := byCatOf items intent w opts.per_role_limit requiredCats
  let singleScores := singleScoresOf items w
  enumOutfits requiredCats byCat singleScores w
    (intent.outfit_mode = Mode.outfit ∧ 1 < requiredCats.length)

/-- Add `randUniform(-jitter, jitter)` to each candidate's score, consuming
one stream draw per candidate from position `i` on (the loops call
`randUniform` once per pushed candidate, in push order). -/
def applyJitterFrom (jitter : ℚ) (vals : ℕ → ℚ) : ℕ → List ScoredOutfit → List ScoredOutfit
  | _, [] => []
  | i, o :: os =>
    ⟨o.outfit, o.score + randUniform (-jitter) jitter (vals i)⟩
      :: applyJitterFrom jitter vals (i + 1) os

/-- The full core of `main` after intent resolution: enumerate, jitter, rank
and diversity-sample.  (An empty candidate list makes the program exit with an
error; here the empty list is returned.) -/
def recommend (items : List IndexItem) (intent : PromptIntent) (opts : Options)
    (rng : Rng) : List ScoredOutfit :=
  let plain := enumPhase items intent opts
  let outfits := applyJitterFrom opts.jitter rng.vals rng.idx plain
  let rng2 : Rng := ⟨rng.vals, rng.idx + plain.length⟩
  diversitySample (effectiveEpsilon opts.epsilon) opts.pool_size rng2 outfits

/-! ### Intent merging (`main` lines 1130-1148) -/

/-- The fields of the oracle (Gemini) intent that the merge logic reads: the
parsed JSON may omit `outfit_mode` and `requested_form` (the code tests them
for falsiness), so both are `Option`; sanitization has already filtered
`required_categories` to the closed enum. -/
structure OracleIntent where
  outfit_mode : Option Mode
  requested_form : Option OutfitForm
  required_categories : List CategoryMain
deriving DecidableEq

/-- The same three fields after the merge/repair step. -/
structure MergedCore where
  outfit_mode : Option Mode
  requested_form : Option OutfitForm
  required_categories : List CategoryMain
deriving DecidableEq

/-- The merge/repair of the oracle intent with the heuristic fallback intent:
empty oracle categories are replaced by the fallback's (form and mode only
when the oracle omitted them); otherwise, when both are outfit-mode and the
fallback's distinct role set is strictly larger, the fallback's categories and
form win; all other fields pass through unchanged. -/
def mergeIntent (oracle : OracleIntent) (heur : PromptIntent) : MergedCore :=
  if oracle.required_categories = [] then
    { required_categories := heur.required_categories
      requested_form :=
        match oracle.requested_form with
        | Option.none => Option.some heur.requested_form
        | Option.some f => Option.some f
      outfit_mode :=
        match oracle.outfit_mode with
        | Option.none => Option.some heur.outfit_mode
        | Option.some m => Option.some m }
  else
    if oracle.outfit_mode = Option.some Mode.outfit
        ∧ heur.outfit_mode = Mode.outfit
        ∧ (dedupFirst oracle.required_categories).length
            < (dedupFirst heur.required_categories).length then
      { required_categories := heur.required_categories
        requested_form := Option.some heur.requested_form
        outfit_mode := oracle.outfit_mode }
    else
      { required_categories := oracle.required_categories
        requested_form := oracle.requested_form
        outfit_mode := oracle.outfit_mode }

/-! ### Spec-side definition for the colour-penalty claim -/

/-- `colourAlignment` as the specification describes it for a user with no
colour preference: identical to `colourAlignment` but with the no-match
penalty step removed.  Used only to compare the code's behaviour against the
claimed one. -/
def colourAlignmentSpecNoPenalty (item : IndexItem) (w : Colour → ℚ) : ℚ :=
  if item.colours = [] then 0
  else
    let best := item.colours.foldl (fun acc c => max acc (w c)) 0
    let hasNeutral := item.colours.any (fun c => c ∈ neutrals)
    if hasNeutral then best + 1/5 * neutralMax w else best

/-! ### Concrete inputs used by counterexamples and witnesses -/

/-- An oversized top used to exhibit the fit-pair asymmetry. -/
def topOversized : IndexItem :=
  { id := "t1", imagePath := "t1.jpg", category := CategoryMain.top,
    colours := [Colour.black], vibes := [], gender := Gender.unisex,
    fit := Option.some Fit.oversized }

/-- A slim bottom used to exhibit the fit-pair asymmetry. -/
def bottomSlim : IndexItem :=
  { id := "b1", imagePath := "b1.jpg", category := CategoryMain.bottom,
    colours := [Colour.black], vibes := [], gender := Gender.unisex,
    fit := Option.some Fit.slim }

/-- A slim top used to exhibit the fit-pair asymmetry. -/
def topSlim : IndexItem :=
  { id := "t2", imagePath := "t2.jpg", category := CategoryMain.top,
    colours := [Colour.black], vibes := [], gender := Gender.unisex,
    fit := Option.some Fit.slim }

/-- An oversized bottom used to exhibit the fit-pair asymmetry. -/
def bottomOversized : IndexItem :=
  { id := "b2", imagePath := "b2.jpg", category := CategoryMain.bottom,
    colours := [Colour.black], vibes := [], gender := Gender.unisex,
    fit := Option.some Fit.oversized }

/-- C4 counterexample input: an intent with no colour hints at all. -/
def intentNoHints : PromptIntent :=
  { outfit_mode := Mode.single, requested_form := OutfitForm.top_only,
    required_categories := [CategoryMain.top], target_gender := TargetGender.any,
    sport_context := Sport.none }

/-- C4 counterexample input: an item whose only colour is red (non-neutral). -/
def redOnlyTop : IndexItem :=
  { id := "r1", imagePath := "r1.jpg", category := CategoryMain.top,
    colours := [Colour.red], vibes := [], gender := Gender.unisex }

/-- C9 counterexample input: an oracle intent with empty categories but a
present `requested_form`. -/
def oracleNoCats : OracleIntent :=
  ⟨Option.some Mode.single, Option.some OutfitForm.shoes_only, []⟩

/-- C9 counterexample input: the heuristic fallback intent with a full form. -/
def heurFull : PromptIntent :=
  { outfit_mode := Mode.outfit, requested_form := OutfitForm.top_bottom_shoes,
    required_categories := [CategoryMain.top, CategoryMain.bottom, CategoryMain.shoes],
    target_gender := TargetGender.any, sport_context := Sport.none }

/-- A catalog item used to witness the non-emptiness theorem. -/
def plainTop : IndexItem :=
  { id := "w1", imagePath := "w1.jpg", category := CategoryMain.top,
    colours := [Colour.black], vibes := [Vibe.minimal], gender := Gender.unisex }

/-- A neutral single-top intent used in witnesses. -/
def intentPlainTop : PromptIntent :=
  { outfit_mode := Mode.single, requested_form := OutfitForm.top_only,
    required_categories := [CategoryMain.top], target_gender := TargetGender.any,
    sport_context := Sport.none }

/-- C6 counterexample input: an intent with both a brand focus and
specific-item tokens. -/
def intentBrandSpecific : PromptIntent :=
  { outfit_mode := Mode.single, requested_form := OutfitForm.top_only,
    required_categories := [CategoryMain.top], target_gender := TargetGender.any,
    sport_context := Sport.none, brand_focus := ["nike"],
    specific_items := ["timberland boot"] }

/-- C6 counterexample input: a branded item matching one specific token. -/
def nikeStyleTop : IndexItem :=
  { id := "A", imagePath := "a.jpg", category := CategoryMain.top,
    colours := [Colour.black], vibes := [], gender := Gender.unisex,
    name := Option.some "nike timberland style" }

/-- C6 counterexample input: an unbranded item matching two specific tokens. -/
def timberBootTop : IndexItem :=
  { id := "B", imagePath := "b.jpg", category := CategoryMain.top,
    colours := [Colour.black], vibes := [], gender := Gender.unisex,
    name := Option.some "timberland boot classic" }

/-- C7 failing input: a men's football top (the only sport-relevant item). -/
def footballTopMen : IndexItem :=
  { id := "f1", imagePath := "f1.jpg", category := CategoryMain.top,
    colours := [Colour.red], vibes := [], gender := Gender.men,
    sportMeta := Option.some ⟨Option.some Sport.football, [], true⟩ }

/-- C7 failing input: a plain women's top of the same role. -/
def plainTopWomen : IndexItem :=
  { id := "p1", imagePath := "p1.jpg", category := CategoryMain.top,
    colours := [Colour.white], vibes := [], gender := Gender.women }

/-- C7 failing input: a football-context intent targeting women. -/
def intentFootballWomen : PromptIntent :=
  { outfit_mode := Mode.single, requested_form := OutfitForm.top_only,
    required_categories := [CategoryMain.top], target_gender := TargetGender.women,
    sport_context := Sport.football }

/-- A random stream of zeros. -/
def rngZero : Rng := ⟨fun _ => 0, 0⟩

/-- A random stream of halves. -/
def rngHalf : Rng := ⟨fun _ => 1/2, 0⟩

/-- Options with `pool_size 1`, `per_role_limit 12`, `epsilon 0`, `jitter 0`. -/
def optsTopOne : Options := ⟨1, 12, 0, 0⟩

/-! ## Theorems -/

/-! ### Generic list-sum helpers -/

theorem sum_map_add {α : Type} (l : List α) (f g : α → ℚ) :
    (l.map (fun a => f a + g a)).sum = (l.map f).sum + (l.map g).sum := by
  induction l with
  | nil => simp
  | cons a t ih => simp [ih]; ring

theorem sum_map_swap {α β : Type} (l1 : List α) (l2 : List β) (f : α → β → ℚ) :
    (l1.map (fun a => (l2.map (fun b => f a b)).sum)).sum
      = (l2.map (fun b => (l1.map (fun a => f a b)).sum)).sum := by
  induction l1 with
  | nil => simp
  | cons a t ih =>
    simp only [List.map_cons, List.sum_cons, ih, ← sum_map_add]

/-! ### C8: colour-pair compatibility is symmetric -/

theorem pairColourTerm_symm (ca cb : Colour) :
    pairColourTerm ca cb = pairColourTerm cb ca := by
  cases ca <;> cases cb <;> rfl

/-- C8: for every pair of catalog items `a` and `b`, the colour-pair
compatibility term is symmetric: `pairColorCompatibility a b =
pairColorCompatibility b a`. -/
theorem pairColorCompatibility_symm (a b : IndexItem) :
    pairColorCompatibility a b = pairColorCompatibility b a := by
  unfold pairColorCompatibility
  by_cases ha : a.colours = []
  · by_cases hb : b.colours = [] <;> simp [ha, hb]
  · by_cases hb : b.colours = []
    · simp [ha, hb]
    · rw [if_neg (by tauto), if_neg (by tauto)]
      rw [sum_map_swap]
      have hmaps : (b.colours.map (fun cb =>
            (a.colours.map (fun ca => pairColourTerm ca cb)).sum))
          = (b.colours.map (fun cb =>
            (a.colours.map (fun ca => pairColourTerm cb ca)).sum)) := by
        apply List.map_congr_left
        intro cb _
        apply congrArg List.sum
        apply List.map_congr_left
        intro ca _
        exact pairColourTerm_symm ca cb
      rw [hmaps, mul_comm]

/-! ### C10: fit-pair compatibility is directional -/

/-- C10: the fit-pair compatibility term is directional in the roles:
an oversized top with a slim bottom scores 1.3, while a slim top with an
oversized bottom scores 0.5, so swapping the fits across the two roles
changes the value — unlike the colour-pair term, it is not symmetric. -/
theorem pairFitCompatibility_directional :
    pairFitCompatibility topOversized bottomSlim = 13/10
    ∧ pairFitCompatibility topSlim bottomOversized = 1/2
    ∧ pairFitCompatibility topOversized bottomSlim
        ≠ pairFitCompatibility topSlim bottomOversized := by
  refine ⟨rfl, rfl, ?_⟩
  intro h
  rw [show pairFitCompatibility topOversized bottomSlim = 13/10 from rfl,
      show pairFitCompatibility topSlim bottomOversized = 1/2 from rfl] at h
  norm_num at h

/-! ### C5: the effective epsilon is clamped to [0,1], not [0,0.5] -/

/-- C5 counterexample: the CLI value 0.8 passes through `effectiveEpsilon`
(that is, `clamp01`) unchanged, whereas clamping to [0, 0.5] would produce
0.5 — the claimed clamp interval is wrong. -/
theorem effectiveEpsilon_counterexample :
    effectiveEpsilon (4/5) = 4/5
    ∧ max 0 (min (4/5 : ℚ) (1/2)) = 1/2
    ∧ effectiveEpsilon (4/5) ≠ max 0 (min (4/5 : ℚ) (1/2)) := by
  refine ⟨?_, ?_, ?_⟩ <;> norm_num [effectiveEpsilon, clamp01]

/-- C5 amended: the effective diversity factor equals the CLI-supplied value
clamped to the interval [0, 1] (the source clamps with `clamp01`, not to
[0, 0.5]). -/
theorem effectiveEpsilon_clamps_to_unit_interval (x : ℚ) :
    effectiveEpsilon x = max 0 (min x 1) := by
  simp only [effectiveEpsilon, clamp01, max_def, min_def]
  split_ifs <;> linarith

/-! ### C4: the colour no-match penalty fires even without colour hints -/

theorem sum_indicator_one {α : Type} [DecidableEq α] (x : α) :
    ∀ L : List α, L.Nodup → x ∈ L →
      (L.map (fun c => if x = c then (1 : ℚ) else 0)).sum = 1
  | [], _, hx => absurd hx (List.not_mem_nil x)
  | a :: t, hnd, hx => by
    rcases List.mem_cons.mp hx with h | h
    · subst h
      have hz : (t.map (fun c => if x = c then (1 : ℚ) else 0)).sum = 0 := by
        apply List.sum_eq_zero
        intro q hq
        obtain ⟨c, hc, hcq⟩ := List.mem_map.mp hq
        have : x ≠ c := by
          rintro rfl; exact (List.nodup_cons.mp hnd).1 hc
        rw [if_neg this] at hcq
        exact hcq.symm
      simp [hz]
    · have hne : x ≠ a := by
        rintro rfl; exact (List.nodup_cons.mp hnd).1 h
      simp only [List.map_cons, List.sum_cons, if_neg hne,
        sum_indicator_one x t (List.nodup_cons.mp hnd).2 h, zero_add]

theorem count_sum_allColours (hints : List Colour) :
    (allColours.map (fun c => (hints.count c : ℚ))).sum = hints.length := by
  induction hints with
  | nil => simp [allColours]
  | cons h t ih =>
    have hsplit : (allColours.map (fun c => (((h :: t).count c : ℕ) : ℚ))).sum
        = (allColours.map (fun c => ((t.count c : ℕ) : ℚ))).sum
          + (allColours.map (fun c : Colour => if h = c then (1 : ℚ) else 0)).sum := by
      rw [← sum_map_add]
      apply congrArg List.sum
      apply List.map_congr_left
      intro c _
      by_cases hc : h = c
      · subst hc; simp [List.count_cons_self]
      · simp [List.count_cons_of_ne (fun he => hc he.symm), hc]
    have hone : (allColours.map (fun c : Colour => if h = c then (1 : ℚ) else 0)).sum = 1 :=
      sum_indicator_one h allColours (by decide) (by cases h <;> decide)
    rw [hsplit, ih, hone]
    push_cast [List.length_cons]
    ring

/-- For weights built by `buildWeights`, the total colour-preference mass is
always positive: hinted colours contribute their count, and with no hints the
neutral baseline contributes 1.1 — so the `totalPref > 0` guard of
`colourAlignment` is always satisfied. -/
theorem buildWeights_totalColour_pos (intent : PromptIntent) :
    0 < (allColours.map (buildWeights intent).wColour).sum := by
  have hw : (buildWeights intent).wColour = fun c =>
      (intent.colour_hints.count c : ℚ)
        + (if intent.colour_hints = [] then baselineColour c else 0) := rfl
  rw [hw, sum_map_add, count_sum_allColours]
  cases hh : intent.colour_hints with
  | nil => norm_num [allColours, baselineColour]
  | cons a l =>
    have hz : (allColours.map (fun c : Colour =>
        if (a :: l : List Colour) = [] then baselineColour c else 0)).sum = 0 := by
      simp
    rw [hz, add_zero]
    exact_mod_cast Nat.succ_pos l.length

/-- C4 counterexample: the user expressed no colour preference
(`colour_hints = []`), yet the red-only item receives the −0.5 no-match
penalty (`colourAlignment` returns −1/2 where the penalty-free value is 0),
because the neutral baseline keeps the total preference mass positive. -/
theorem colourAlignment_empty_hints_counterexample :
    intentNoHints.colour_hints = []
    ∧ colourAlignment redOnlyTop (buildWeights intentNoHints).wColour = -(1/2)
    ∧ colourAlignmentSpecNoPenalty redOnlyTop (buildWeights intentNoHints).wColour = 0
    ∧ colourAlignment redOnlyTop (buildWeights intentNoHints).wColour
        ≠ colourAlignmentSpecNoPenalty redOnlyTop (buildWeights intentNoHints).wColour := by
  have hred : Colour.red ∉ neutrals := by decide
  refine ⟨rfl, ?_, ?_, ?_⟩ <;>
    norm_num [colourAlignment, colourAlignmentSpecNoPenalty, buildWeights, redOnlyTop,
      intentNoHints, allColours, baselineColour, neutralMax, hred]

/-- C4 amended: under weights built by `buildWeights`, `colourAlignment`
subtracts the fixed −0.5 no-match penalty exactly when the item has colours
and none of them carries positive weight — independently of whether the user
gave colour hints (with no hints, the neutral baseline keeps the total mass
positive, so items with only non-neutral colours are still penalised). -/
theorem colourAlignment_penalty_characterization (intent : PromptIntent) (item : IndexItem) :
    colourAlignment item (buildWeights intent).wColour
      = colourAlignmentSpecNoPenalty item (buildWeights intent).wColour
        - (if item.colours ≠ []
              ∧ item.colours.any (fun c => decide (0 < (buildWeights intent).wColour c)) = false
           then 1/2 else 0) := by
  have hpos := buildWeights_totalColour_pos intent
  by_cases hempty : item.colours = []
  · simp [colourAlignment, colourAlignmentSpecNoPenalty, hempty]
  · have hco : (0 < (allColours.map (buildWeights intent).wColour).sum ∧
        item.colours.any (fun c => decide (0 < (buildWeights intent).wColour c)) = false)
        ↔ item.colours.any (fun c => decide (0 < (buildWeights intent).wColour c)) = false :=
      and_iff_right hpos
    simp only [colourAlignment, colourAlignmentSpecNoPenalty, if_neg hempty, hempty,
      not_false_iff, true_and, hco, ne_eq]
    split_ifs <;> first | ring1 | contradiction

/-! ### C9: merged form is replaced only when the oracle omitted it -/

/-- C9 counterexample: with empty oracle categories, the merge copies the
fallback's categories, but keeps the oracle's `requested_form` whenever the
oracle supplied one — it is not replaced by the fallback's form. -/
theorem mergeIntent_form_counterexample :
    oracleNoCats.required_categories = []
    ∧ (mergeIntent oracleNoCats heurFull).required_categories = heurFull.required_categories
    ∧ (mergeIntent oracleNoCats heurFull).requested_form
        ≠ Option.some heurFull.requested_form := by
  decide

/-- C9 amended: when the sanitized oracle intent has no required categories,
the merged intent's categories are the fallback's, while `requested_form`
(and `outfit_mode`) are taken from the fallback only when the oracle omitted
them — a supplied oracle value is kept. -/
theorem mergeIntent_empty_categories (oracle : OracleIntent) (heur : PromptIntent)
    (h : oracle.required_categories = []) :
    (mergeIntent oracle heur).required_categories = heur.required_categories
    ∧ (mergeIntent oracle heur).requested_form
        = Option.some (oracle.requested_form.getD heur.requested_form)
    ∧ (mergeIntent oracle heur).outfit_mode
        = Option.some (oracle.outfit_mode.getD heur.outfit_mode) := by
  unfold mergeIntent
  rw [if_pos h]
  refine ⟨rfl, ?_, ?_⟩
  · cases oracle.requested_form <;> rfl
  · cases oracle.outfit_mode <;> rfl

/-- C9 amended, witness at the counterexample inputs. -/
theorem mergeIntent_empty_categories_witness :
    (mergeIntent oracleNoCats heurFull).required_categories = heurFull.required_categories
    ∧ (mergeIntent oracleNoCats heurFull).requested_form
        = Option.some (oracleNoCats.requested_form.getD heurFull.requested_form)
    ∧ (mergeIntent oracleNoCats heurFull).outfit_mode
        = Option.some (oracleNoCats.outfit_mode.getD heurFull.outfit_mode) :=
  mergeIntent_empty_categories oracleNoCats heurFull rfl

/-! ### C1: candidate filtering never empties a populated role -/

theorem stagesLoop_ne_nil (base : List IndexItem) (intent : PromptIntent)
    (w : ContextWeights) (hbase : base ≠ []) :
    ∀ L : List Stage, stagesLoop base intent w L ≠ [] := by
  intro L
  induction L with
  | nil => exact hbase
  | cons st rest ih =>
    simp only [stagesLoop]
    by_cases hp : stagePool base intent w st ≠ []
    · rw [if_pos hp]; exact hp
    · rw [if_neg hp]; exact ih

/-- C1: for every catalog and every role, if the catalog contains at least one
item of that role's category, `filterCandidatesForRole` returns a non-empty
list: the stage loop only ever returns a non-empty stage pool, and the final
fallback is the (sport-narrowed) role-restricted catalog, which is non-empty. -/
theorem filterCandidatesForRole_nonempty (items : List IndexItem)
    (category : CategoryMain) (intent : PromptIntent) (w : ContextWeights)
    (h : ∃ it ∈ items, it.category = category) :
    filterCandidatesForRole items category intent w ≠ [] := by
  obtain ⟨it, hmem, hcat⟩ := h
  have hbase0 : items.filter (fun i => i.category = category) ≠ [] := by
    apply List.ne_nil_of_mem (a := it)
    rw [List.mem_filter]
    exact ⟨hmem, by simp [hcat]⟩
  simp only [filterCandidatesForRole]
  by_cases hs : intent.sport_context ≠ Sport.none
  · rw [if_pos hs]
    by_cases hsp : (items.filter (fun i => i.category = category)).filter
        (fun i => isSportRelevantForContext i intent.sport_context w.teamTokens) ≠ []
    · rw [if_pos hsp]
      exact stagesLoop_ne_nil _ intent w hsp stages
    · rw [if_neg hsp]
      exact stagesLoop_ne_nil _ intent w hbase0 stages
  · rw [if_neg hs]
    exact stagesLoop_ne_nil _ intent w hbase0 stages

/-- C1 witness: a one-item catalog with a top item yields a non-empty pool. -/
theorem filterCandidatesForRole_nonempty_witness :
    filterCandidatesForRole [plainTop] CategoryMain.top intentPlainTop
      (buildWeights intentPlainTop) ≠ [] :=
  filterCandidatesForRole_nonempty [plainTop] CategoryMain.top intentPlainTop
    (buildWeights intentPlainTop) ⟨plainTop, by simp, rfl⟩

/-! ### C6: staged relaxation widens — except under specific-item narrowing -/

theorem specificTieFilter_nil_tokens (pool : List IndexItem) :
    specificTieFilter [] pool = pool := by
  simp [specificTieFilter]

theorem ifFilter_subset (c : Prop) [Decidable c] (l : List IndexItem)
    (p : IndexItem → Bool) : (if c then l.filter p else l) ⊆ l := by
  split_ifs
  · exact List.filter_subset' l
  · exact List.Subset.refl l

theorem ifFilter_mono (c : Prop) [Decidable c] {A B : List IndexItem}
    (p : IndexItem → Bool) (h : A ⊆ B) :
    (if c then A.filter p else A) ⊆ (if c then B.filter p else B) := by
  split_ifs
  · intro x hx
    rw [List.mem_filter] at hx ⊢
    exact ⟨h hx.1, hx.2⟩
  · exact h

/-- C6 amended: when no specific-item tokens were given, the staged relaxation
is monotonically widening — each later stage's pool (over the same
gender-filtered base) is a superset of the previous stage's pool.  (With
specific-item tokens, the per-stage maximum-match narrowing can break this;
see the counterexample.) -/
theorem stagePool_monotone_no_specific (base : List IndexItem) (intent : PromptIntent)
    (w : ContextWeights) (hspec : w.specificTokens = [])
    (k : ℕ) (hk : k + 1 < stages.length) :
    stagePool base intent w (stages.get ⟨k, Nat.lt_of_succ_lt hk⟩)
      ⊆ stagePool base intent w (stages.get ⟨k + 1, hk⟩) := by
  have hk3 : k < 3 := by
    have : stages.length = 4 := rfl
    omega
  simp only [stagePool, hspec, specificTieFilter_nil_tokens]
  interval_cases k
  · -- stage 0 → stage 1: drop the brand requirement
    show (if (true : Bool) = true ∧ w.teamTokens ≠ [] then _ else _) ⊆ _
    apply ifFilter_mono
    apply ifFilter_subset
  · -- stage 1 → stage 2: drop the team requirement
    show _ ⊆ _
    simp only [show ((stages.get ⟨1, by decide⟩).requireBrand : Bool) = false from rfl,
      show ((stages.get ⟨2, by decide⟩).requireBrand : Bool) = false from rfl,
      show ((stages.get ⟨1, by decide⟩).requireTeam : Bool) = true from rfl,
      show ((stages.get ⟨2, by decide⟩).requireTeam : Bool) = false from rfl,
      Bool.false_eq_true, false_and, if_false]
    apply ifFilter_subset
  · -- stage 2 → stage 3: drop the strong sport requirement
    simp only [show ((stages.get ⟨2, by decide⟩).requireBrand : Bool) = false from rfl,
      show ((stages.get ⟨3, by decide⟩).requireBrand : Bool) = false from rfl,
      show ((stages.get ⟨2, by decide⟩).requireTeam : Bool) = false from rfl,
      show ((stages.get ⟨3, by decide⟩).requireTeam : Bool) = false from rfl,
      show ((stages.get ⟨2, by decide⟩).requireSportStrong : Bool) = true from rfl,
      show ((stages.get ⟨3, by decide⟩).requireSportStrong : Bool) = false from rfl,
      Bool.false_eq_true, false_and, if_false, if_true]
    by_cases hs : intent.sport_context ≠ Sport.none
    · rw [if_pos hs]; exact List.filter_subset' _
    · rw [if_neg hs]
      by_cases hn : (base.filter (fun it =>
          genderCompatible it.gender intent.target_gender)).filter
            (fun it => itemSport it = Sport.none) ≠ []
      · rw [if_pos hn]; exact List.filter_subset' _
      · rw [if_neg hn]; exact List.Subset.refl _

/-- C6 counterexample: with specific-item tokens present, stage 1's pool is
not a superset of stage 0's pool.  At stage 0 the brand filter keeps only the
"nike" item, which then wins the specific-token tie (1 match); at stage 1 the
unbranded item is back in the pool and raises the maximum match count to 2,
evicting the stage-0 winner.  The staged relaxation is therefore not
monotonically widening in general. -/
theorem stagePool_not_monotone_counterexample :
    nikeStyleTop ∈ stagePool [nikeStyleTop, timberBootTop] intentBrandSpecific
        (buildWeights intentBrandSpecific) (stages.get ⟨0, by decide⟩)
    ∧ nikeStyleTop ∉ stagePool [nikeStyleTop, timberBootTop] intentBrandSpecific
        (buildWeights intentBrandSpecific) (stages.get ⟨1, by decide⟩) := by
  decide

/-- C6 amended, witness: with no specific-item tokens, a member of stage 0's
pool is in stage 1's pool. -/
theorem stagePool_monotone_no_specific_witness :
    (buildWeights intentPlainTop).specificTokens = []
    ∧ plainTop ∈ stagePool [plainTop] intentPlainTop (buildWeights intentPlainTop)
        (stages.get ⟨1, by decide⟩) :=
  ⟨rfl,
    stagePool_monotone_no_specific [plainTop] intentPlainTop
      (buildWeights intentPlainTop) rfl 0 (by decide) (by decide)⟩

/-! ### C7: the no-stage fallback keeps the sport-context narrowing -/

/-- C7: evaluation of the code at the failing input.  Every relaxation stage
is empty (the only sport-relevant item fails the gender filter), so the
fallback fires — but it returns the sport-narrowed base `[footballTopMen]`,
not the full role-restricted catalog `[footballTopMen, plainTopWomen]`,
contradicting both the specification and the source's own fallback comment
("return all items of that category"). -/
theorem filterCandidatesForRole_fallback_sport_narrowed :
    filterCandidatesForRole [footballTopMen, plainTopWomen] CategoryMain.top
        intentFootballWomen (buildWeights intentFootballWomen) = [footballTopMen]
    ∧ ([footballTopMen, plainTopWomen].filter
        (fun it => it.category = CategoryMain.top)) = [footballTopMen, plainTopWomen]
    ∧ plainTopWomen ∉ filterCandidatesForRole [footballTopMen, plainTopWomen]
        CategoryMain.top intentFootballWomen (buildWeights intentFootballWomen) := by
  decide

/-! ### C2: diversity sampling — deduplication and size bounds -/

theorem choiceWeightedGo_mem :
    ∀ (items : List ScoredOutfit) (scores : List ℚ) (r : ℚ) (x : ScoredOutfit),
      choiceWeightedGo items scores r = Option.some x → x ∈ items
  | [], _, _, _, h => by simp [choiceWeightedGo] at h
  | a :: rest, [], r, x, h =>
    List.mem_cons_of_mem _ (choiceWeightedGo_mem rest [] r x h)
  | it :: rest, s :: ss, r, x, h => by
    by_cases hr : r - s ≤ 0
    · have h2 : Option.some it = Option.some x := by
        simpa [choiceWeightedGo, hr] using h
      injection h2 with h3
      rw [← h3]
      exact List.mem_cons_self it rest
    · have h3 : choiceWeightedGo rest ss (r - s) = Option.some x := by
        simpa [choiceWeightedGo, hr] using h
      exact List.mem_cons_of_mem _ (choiceWeightedGo_mem rest ss (r - s) x h3)

theorem choiceWeighted_mem (items : List ScoredOutfit) (scores : List ℚ) (r0 : ℚ)
    (x : ScoredOutfit) (h : choiceWeighted items scores r0 = Option.some x) :
    x ∈ items := by
  simp only [choiceWeighted] at h
  split_ifs at h
  revert h
  cases hgo : choiceWeightedGo items scores (r0 * scores.sum) with
  | some y =>
    intro h
    injection h with h2
    exact h2 ▸ choiceWeightedGo_mem items scores _ y hgo
  | none =>
    intro h
    exact List.mem_of_mem_getLast? h

theorem samplePick_mem (eps r r2 : ℚ) (b0 : ScoredOutfit) (rest : List ScoredOutfit) :
    samplePick eps r r2 b0 rest ∈ b0 :: rest := by
  unfold samplePick
  split_ifs
  · cases hcw : choiceWeighted (b0 :: rest)
        ((b0 :: rest).map (fun o =>
          max (1/10000 : ℚ) (o.score - (rest.getLastD b0).score + 1/1000))) r2 with
    | some x =>
      exact choiceWeighted_mem _ _ _ x hcw
    | none =>
      exact List.mem_cons_self b0 rest
  · exact List.mem_cons_self b0 rest

theorem samplePick_greedy (eps r r2 : ℚ) (b0 : ScoredOutfit) (rest : List ScoredOutfit)
    (h : ¬ r < eps) : samplePick eps r r2 b0 rest = b0 := by
  unfold samplePick
  rw [if_neg h]

theorem sampleLoop_invariants (eps : ℚ) (poolSize : ℕ) :
    ∀ (fuel : ℕ) (rng : Rng) (band chosen : List ScoredOutfit) (used : List (List Char)),
      (chosen.map (fun c => sigOf c.outfit)).Nodup →
      (∀ c ∈ chosen, sigOf c.outfit ∈ used) →
      ((sampleLoop eps poolSize fuel rng band chosen used).map
          (fun c => sigOf c.outfit)).Nodup
      ∧ (sampleLoop eps poolSize fuel rng band chosen used).length
          ≤ max chosen.length poolSize
      ∧ (sampleLoop eps poolSize fuel rng band chosen used).length
          ≤ chosen.length + band.length := by
  intro fuel
  induction fuel with
  | zero =>
    intro rng band chosen used h1 h2
    simp only [sampleLoop]
    exact ⟨h1, le_max_left _ _, Nat.le_add_right _ _⟩
  | succ n ih =>
    intro rng band chosen used h1 h2
    match band with
    | [] =>
      simp only [sampleLoop]
      exact ⟨h1, le_max_left _ _, Nat.le_add_right _ _⟩
    | b0 :: rest =>
      simp only [sampleLoop]
      by_cases hlen : chosen.length < poolSize
      · rw [if_pos hlen]
        have hmem : samplePick eps (rng.vals rng.idx) (rng.vals (rng.idx + 1)) b0 rest
            ∈ b0 :: rest := samplePick_mem _ _ _ _ _
        have herase : ((b0 :: rest).erase
            (samplePick eps (rng.vals rng.idx) (rng.vals (rng.idx + 1)) b0 rest)).length
            = rest.length := by
          rw [List.length_erase_of_mem hmem]
          simp
        by_cases hsg : sigOf (samplePick eps (rng.vals rng.idx) (rng.vals (rng.idx + 1))
            b0 rest).outfit ∈ used
        · rw [if_pos hsg]
          obtain ⟨g1, g2, g3⟩ := ih _ _ _ _ h1 h2
          refine ⟨g1, g2, ?_⟩
          rw [herase] at g3
          simp only [List.length_cons]
          omega
        · rw [if_neg hsg]
          have h1' : ((chosen ++ [samplePick eps (rng.vals rng.idx)
              (rng.vals (rng.idx + 1)) b0 rest]).map (fun c => sigOf c.outfit)).Nodup := by
            rw [List.map_append]
            refine h1.append (List.nodup_singleton _) ?_
            intro s hs hs2
            simp only [List.map_cons, List.map_nil, List.mem_singleton] at hs2
            obtain ⟨c, hc, hcs⟩ := List.mem_map.mp hs
            exact hsg (hs2 ▸ (hcs ▸ h2 c hc))
          have h2' : ∀ c ∈ chosen ++ [samplePick eps (rng.vals rng.idx)
              (rng.vals (rng.idx + 1)) b0 rest],
              sigOf c.outfit ∈ used ++ [sigOf (samplePick eps (rng.vals rng.idx)
                (rng.vals (rng.idx + 1)) b0 rest).outfit] := by
            intro c hc
            rcases List.mem_append.mp hc with h | h
            · exact List.mem_append_left _ (h2 c h)
            · simp only [List.mem_singleton] at h
              subst h
              exact List.mem_append_right _ (List.mem_singleton.mpr rfl)
          obtain ⟨g1, g2, g3⟩ := ih _ _ _ _ h1' h2'
          refine ⟨g1, ?_, ?_⟩
          · refine le_trans g2 ?_
            have hx : (chosen ++ [samplePick eps (rng.vals rng.idx)
                (rng.vals (rng.idx + 1)) b0 rest]).length = chosen.length + 1 := by
              simp
            rw [hx, Nat.max_eq_right hlen, Nat.max_eq_right (le_of_lt hlen)]
          · rw [herase] at g3
            simp only [List.length_append, List.length_singleton] at g3
            simp only [List.length_cons]
            omega
      · rw [if_neg hlen]
        exact ⟨h1, le_max_left _ _, Nat.le_add_right _ _⟩

/-- C2: for every candidate list, target count and diversity factor (and any
random stream), the diversity-sampled result contains no two entries with the
same item-set signature, has length at most the requested count, and has
length at most the band size. -/
theorem diversitySample_invariants (eps : ℚ) (poolSize : ℕ) (rng : Rng)
    (cands : List ScoredOutfit) :
    ((diversitySample eps poolSize rng cands).map (fun c => sigOf c.outfit)).Nodup
    ∧ (diversitySample eps poolSize rng cands).length ≤ poolSize
    ∧ (diversitySample eps poolSize rng cands).length
        ≤ ((sortDescBy (fun c : ScoredOutfit => c.score) cands).take
            (max (poolSize * 3) poolSize)).length := by
  unfold diversitySample
  obtain ⟨g1, g2, g3⟩ := sampleLoop_invariants eps poolSize _ rng _ [] []
    (by simp) (by simp)
  refine ⟨g1, ?_, ?_⟩
  · simpa using g2
  · simpa using g3

/-! ### C3: with epsilon = 0 and jitter = 0 the pipeline is the deterministic
top-N by unperturbed score -/

theorem insertDescBy_perm {α : Type} (f : α → ℚ) (x : α) (l : List α) :
    (insertDescBy f x l).Perm (x :: l) := by
  induction l with
  | nil => exact List.Perm.refl _
  | cons y ys ih =>
    simp only [insertDescBy]
    split_ifs
    · exact List.Perm.refl _
    · exact (ih.cons y).trans (List.Perm.swap x y ys)

theorem sortDescBy_perm {α : Type} (f : α → ℚ) (l : List α) :
    (sortDescBy f l).Perm l := by
  induction l with
  | nil => exact List.Perm.refl _
  | cons a t ih => exact (insertDescBy_perm f a _).trans (ih.cons a)

theorem applyJitterFrom_zero (vals : ℕ → ℚ) :
    ∀ (l : List ScoredOutfit) (i : ℕ), applyJitterFrom 0 vals i l = l := by
  intro l
  induction l with
  | nil => intro i; rfl
  | cons o os ih =>
    intro i
    simp only [applyJitterFrom, randUniform, ih]
    norm_num

/-- With `eps = 0` and a non-negative draw stream, the sampling loop is the
greedy head-taking loop; with pairwise-distinct band signatures none of the
heads is rejected, so it returns the first `poolSize - chosen.length` band
elements appended to `chosen`. -/
theorem sampleLoop_greedy (poolSize : ℕ) :
    ∀ (fuel : ℕ) (rng : Rng) (band chosen : List ScoredOutfit) (used : List (List Char)),
      band.length ≤ fuel →
      (∀ n, 0 ≤ rng.vals n) →
      (band.map (fun c => sigOf c.outfit)).Nodup →
      (∀ c ∈ band, sigOf c.outfit ∉ used) →
      sampleLoop 0 poolSize fuel rng band chosen used
        = chosen ++ band.take (poolSize - chosen.length) := by
  intro fuel
  induction fuel with
  | zero =>
    intro rng band chosen used hf _ _ _
    have hb : band = [] := List.eq_nil_of_length_eq_zero (Nat.le_zero.mp hf)
    subst hb
    simp [sampleLoop]
  | succ n ih =>
    intro rng band chosen used hf hr h1 h2
    match band with
    | [] => simp [sampleLoop]
    | b0 :: rest =>
      simp only [sampleLoop]
      by_cases hlen : chosen.length < poolSize
      · rw [if_pos hlen]
        have hnlt : ¬ rng.vals rng.idx < 0 := not_lt.mpr (hr _)
        rw [samplePick_greedy 0 (rng.vals rng.idx) (rng.vals (rng.idx + 1)) b0 rest hnlt,
          if_neg hnlt]
        have hs : sigOf b0.outfit ∉ used := h2 b0 (List.mem_cons_self b0 rest)
        rw [if_neg hs, List.erase_cons_head]
        rw [ih ⟨rng.vals, rng.idx + 1⟩ rest (chosen ++ [b0]) (used ++ [sigOf b0.outfit])
          (by simpa using Nat.le_of_succ_le_succ (by simpa using hf)) hr
          ((List.nodup_cons.mp (by simpa using h1)).2)
          ?_]
        · have hstep : poolSize - chosen.length = (poolSize - (chosen.length + 1)) + 1 := by
            omega
          rw [hstep, List.take_succ_cons]
          simp
        · intro c hc
          rw [List.mem_append]
          rintro (hu | hu)
          · exact h2 c (List.mem_cons_of_mem b0 hc) hu
          · rw [List.mem_singleton] at hu
            have : sigOf b0.outfit ∉ rest.map (fun c => sigOf c.outfit) :=
              (List.nodup_cons.mp (by simpa using h1)).1
            exact this (hu ▸ List.mem_map_of_mem (fun c => sigOf c.outfit) hc)
      · rw [if_neg hlen]
        have : poolSize - chosen.length = 0 := by omega
        simp [this]

/-- C3: if both the diversity factor and the jitter are zero, then for every
catalog, intent and remaining options, the pipeline output does not depend on
the random stream, and — when the enumerated candidates have pairwise-distinct
item-set signatures (automatic for catalogs with distinct item ids) — it is
exactly the first `pool_size` candidates in descending order of unperturbed
composite score. -/
theorem recommend_eps0_jitter0 (items : List IndexItem) (intent : PromptIntent)
    (opts : Options) (rng1 rng2 : Rng)
    (heps : opts.epsilon = 0) (hjit : opts.jitter = 0)
    (hv1 : ∀ n, 0 ≤ rng1.vals n) (hv2 : ∀ n, 0 ≤ rng2.vals n)
    (hsig : ((enumPhase items intent opts).map (fun c => sigOf c.outfit)).Nodup) :
    recommend items intent opts rng1 = recommend items intent opts rng2
    ∧ recommend items intent opts rng1
        = (sortDescBy (fun c : ScoredOutfit => c.score)
            (enumPhase items intent opts)).take opts.pool_size := by
  have key : ∀ rng : Rng, (∀ n, 0 ≤ rng.vals n) →
      recommend items intent opts rng
        = (sortDescBy (fun c : ScoredOutfit => c.score)
            (enumPhase items intent opts)).take opts.pool_size := by
    intro rng hv
    simp only [recommend, diversitySample]
    rw [hjit, heps, applyJitterFrom_zero]
    have heps0 : effectiveEpsilon 0 = 0 := by norm_num [effectiveEpsilon, clamp01]
    rw [heps0]
    have hsorted : ((sortDescBy (fun c : ScoredOutfit => c.score)
        (enumPhase items intent opts)).map (fun c => sigOf c.outfit)).Nodup :=
      ((sortDescBy_perm (fun c : ScoredOutfit => c.score)
        (enumPhase items intent opts)).map (fun c => sigOf c.outfit)).nodup_iff.mpr hsig
    have hband : (((sortDescBy (fun c : ScoredOutfit => c.score)
        (enumPhase items intent opts)).take
          (max (opts.pool_size * 3) opts.pool_size)).map
            (fun c => sigOf c.outfit)).Nodup := by
      rw [List.map_take]
      exact hsorted.sublist (List.take_sublist _ _)
    rw [sampleLoop_greedy opts.pool_size _
      ⟨rng.vals, rng.idx + (enumPhase items intent opts).length⟩ _ _ _ le_rfl hv hband
      (fun c _ => List.not_mem_nil _)]
    simp only [List.length_nil, Nat.sub_zero, List.take_take, List.nil_append]
    rw [Nat.min_eq_left (le_max_right (opts.pool_size * 3) opts.pool_size)]
  exact ⟨(key rng1 hv1).trans (key rng2 hv2).symm, key rng1 hv1⟩

/-- C3 witness: on a one-item catalog with zero epsilon and jitter, two
different random streams give the same output, namely the top-1 by score. -/
theorem recommend_eps0_jitter0_witness :
    recommend [plainTop] intentPlainTop optsTopOne rngZero
      = recommend [plainTop] intentPlainTop optsTopOne rngHalf
    ∧ recommend [plainTop] intentPlainTop optsTopOne rngZero
        = (sortDescBy (fun c : ScoredOutfit => c.score)
            (enumPhase [plainTop] intentPlainTop optsTopOne)).take optsTopOne.pool_size :=
  recommend_eps0_jitter0 [plainTop] intentPlainTop optsTopOne rngZero rngHalf rfl rfl
    (fun _ => le_refl 0) (fun _ => by norm_num [rngHalf]) (by decide)

end Fshn
